import Mathlib

/-!
Shallow embedding of the in-memory data-access layer of the BlogSphere
repository (file `server/storage.ts`, class `MemStorage`), together with
proofs of the specified properties.

Modelling conventions:
- A JavaScript `Map` is modelled as a `List` of its values in insertion
  order; `Map.get` is `List.find?` on the id field, `Map.delete` is
  `List.eraseP`, and `Map.set` on an existing key is a positional
  replacement (`List.map`), matching the order-preserving semantics of
  JS maps.  Fresh insertions append at the end.
- `Date` timestamps are `Nat` (milliseconds); each operation that calls
  `new Date()` receives the current time as an explicit `now` argument.
- `Array.prototype.sort` with a numeric comparator is modelled by
  `List.insertionSort` with the corresponding total preorder.
- `bcrypt.hash` is an external library (out of scope per the spec); it is
  passed to `createUser` as an abstract `hash` function argument.
- The JS truthiness test `userId ? _ : false` on an optional numeric id is
  modelled by `idTruthy` (defined and nonzero).
- `x || null` on an optional string (empty string is falsy) is modelled by
  `orNullStr`.
-/

namespace Blog

/-- A registered user (`users` table). -/
structure User where
  id : Nat
  email : String
  username : String
  password : String
  displayName : String
  bio : Option String
  avatar : Option String
  createdAt : Nat
deriving Repr, DecidableEq

/-- Input record for `createUser` (insert shape, before id and hashing). -/
structure InsertUser where
  email : String
  username : String
  password : String
  displayName : String
  bio : Option String
  avatar : Option String
deriving Repr, DecidableEq

/-- A blog post (`posts` table). -/
structure Post where
  id : Nat
  title : String
  content : String
  excerpt : String
  authorId : Nat
  image : Option String
  tags : Option (List String)
  published : Bool
  createdAt : Nat
  updatedAt : Nat
deriving Repr, DecidableEq

/-- Input record for `createPost`. -/
structure InsertPost where
  title : String
  content : String
  excerpt : String
  authorId : Nat
  image : Option String
  tags : Option (List String)
  published : Option Bool
deriving Repr, DecidableEq

/-- Update record for `updatePost` (every insert field optional; a field
that is `some` is present in the update object and overrides). -/
structure PostUpdate where
  title : Option String := none
  content : Option String := none
  excerpt : Option String := none
  authorId : Option Nat := none
  image : Option (Option String) := none
  tags : Option (Option (List String)) := none
  published : Option Bool := none
deriving Repr, DecidableEq

/-- A like record (`likes` table). -/
structure Like where
  id : Nat
  userId : Nat
  postId : Nat
  createdAt : Nat
deriving Repr, DecidableEq

/-- A comment record (`comments` table). -/
structure Comment where
  id : Nat
  postId : Nat
  userId : Nat
  content : String
  createdAt : Nat
deriving Repr, DecidableEq

/-- A bookmark record (`bookmarks` table). -/
structure Bookmark where
  id : Nat
  userId : Nat
  postId : Nat
  createdAt : Nat
deriving Repr, DecidableEq

/-- A follow relation (`follows` table). -/
structure Follow where
  id : Nat
  followerId : Nat
  followingId : Nat
  createdAt : Nat
deriving Repr, DecidableEq

/-- A direct message (`messages` table). -/
structure Message where
  id : Nat
  senderId : Nat
  receiverId : Nat
  content : String
  isRead : Bool
  createdAt : Nat
deriving Repr, DecidableEq

/-- Input record for `sendMessage`. -/
structure InsertMessage where
  senderId : Nat
  receiverId : Nat
  content : String
  isRead : Option Bool
deriving Repr, DecidableEq

/-- Denormalized author summary embedded in enriched views. -/
structure AuthorSummary where
  id : Nat
  displayName : String
  username : String
  avatar : Option String
deriving Repr, DecidableEq

/-- Enriched post view: the post fields spread together with the author
summary, live counts and viewer-relative flags. -/
structure PostWithAuthor where
  id : Nat
  title : String
  content : String
  excerpt : String
  authorId : Nat
  image : Option String
  tags : Option (List String)
  published : Bool
  createdAt : Nat
  updatedAt : Nat
  author : AuthorSummary
  likeCount : Nat
  commentCount : Nat
  isLiked : Bool
  isBookmarked : Bool
deriving Repr, DecidableEq

/-- The underlying post of an enriched view (undoing the spread). -/
def PostWithAuthor.toPost (e : PostWithAuthor) : Post :=
  { id := e.id, title := e.title, content := e.content, excerpt := e.excerpt,
    authorId := e.authorId, image := e.image, tags := e.tags,
    published := e.published, createdAt := e.createdAt, updatedAt := e.updatedAt }

/-- A conversation summary (derived view, not stored). -/
structure Conversation where
  participant : AuthorSummary
  lastMessage : Message
  unreadCount : Nat
deriving Repr, DecidableEq

/-- The per-entity id counters (`currentId`). -/
structure Counters where
  users : Nat
  posts : Nat
  likes : Nat
  comments : Nat
  bookmarks : Nat
  follows : Nat
  messages : Nat
deriving Repr, DecidableEq

/-- The whole in-memory store (class `MemStorage`): each entity map is a
list of values in insertion order. -/
structure MemStorage where
  users : List User
  posts : List Post
  likes : List Like
  comments : List Comment
  bookmarks : List Bookmark
  follows : List Follow
  messages : List Message
  currentId : Counters
deriving Repr, DecidableEq

/-- The store built by the constructor: all maps empty, counters at 1. -/
def emptyStorage : MemStorage :=
  { users := [], posts := [], likes := [], comments := [], bookmarks := [],
    follows := [], messages := [],
    currentId := { users := 1, posts := 1, likes := 1, comments := 1,
                   bookmarks := 1, follows := 1, messages := 1 } }

/-- Descending order on a numeric key, as used by the JS comparator
`(a, b) => key(b) - key(a)`. -/
def descRel {α : Type} (f : α → Nat) (a b : α) : Prop := f b ≤ f a

instance {α : Type} (f : α → Nat) : DecidableRel (descRel f) :=
  fun a b => Nat.decLe (f b) (f a)

instance {α : Type} (f : α → Nat) : IsTotal α (descRel f) :=
  ⟨fun a b => Nat.le_total (f b) (f a)⟩

instance {α : Type} (f : α → Nat) : IsTrans α (descRel f) :=
  ⟨fun _ _ _ h1 h2 => Nat.le_trans h2 h1⟩

/-- Model of `array.sort((a, b) => key(b) - key(a))`: a sort that is
sorted descending by the key and a permutation of the input. -/
def sortByDesc {α : Type} (f : α → Nat) (l : List α) : List α :=
  l.insertionSort (descRel f)

/-- Model of `array.slice(a, b)`. -/
def jsSlice {α : Type} (l : List α) (a b : Nat) : List α :=
  (l.take b).drop a

/-- Model of `x || null` for an optional string: the empty string is falsy
in JS, so it collapses to null as well. -/
def orNullStr : Option String → Option String
  | some s => if s = "" then none else some s
  | none => none

/-- JS truthiness of the optional numeric `userId` argument (`userId ?`):
defined and nonzero. -/
def idTruthy : Option Nat → Bool
  | some u => u != 0
  | none => false

/-- Model of `s.toLowerCase()` (character-wise lowercasing). -/
def strToLower (s : String) : String := ⟨s.data.map Char.toLower⟩

/-- Model of `s.includes(q)`: substring containment. -/
def strIncludes (s q : String) : Bool := decide (q.data <:+: s.data)

-- User methods

/-- `getUser`: `this.users.get(id)`. -/
def getUser (id : Nat) (s : MemStorage) : Option User :=
  s.users.find? (fun u => u.id == id)

/-- `getUserByEmail`: first user (in insertion order) with that email. -/
def getUserByEmail (email : String) (s : MemStorage) : Option User :=
  s.users.find? (fun u => u.email == email)

/-- `getUserByUsername`: first user with that username. -/
def getUserByUsername (username : String) (s : MemStorage) : Option User :=
  s.users.find? (fun u => u.username == username)

/-- `createUser`: hashes the password, takes the next user id and inserts
the new user. -/
def createUser (hash : String → String) (userData : InsertUser) (now : Nat)
    (s : MemStorage) : User × MemStorage :=
  let hashedPassword := hash userData.password
  let id := s.currentId.users
  let user : User :=
    { id := id
      email := userData.email
      username := userData.username
      password := hashedPassword
      displayName := userData.displayName
      bio := orNullStr userData.bio
      avatar := orNullStr userData.avatar
      createdAt := now }
  (user,
   { s with users := s.users ++ [user],
            currentId := { s.currentId with users := id + 1 } })

-- Like / comment / bookmark scans used by enrichment

/-- `isPostLiked`. -/
def isPostLiked (userId postId : Nat) (s : MemStorage) : Bool :=
  s.likes.any (fun l => l.userId == userId && l.postId == postId)

/-- `getPostLikeCount`. -/
def getPostLikeCount (postId : Nat) (s : MemStorage) : Nat :=
  (s.likes.filter (fun l => l.postId == postId)).length

/-- `getCommentCount`. -/
def getCommentCount (postId : Nat) (s : MemStorage) : Nat :=
  (s.comments.filter (fun c => c.postId == postId)).length

/-- `isPostBookmarked`. -/
def isPostBookmarked (userId postId : Nat) (s : MemStorage) : Bool :=
  s.bookmarks.any (fun b => b.userId == userId && b.postId == postId)

/-- `enrichPostWithAuthor`: spreads the post with the author summary, live
counts and viewer-relative flags. -/
def enrichPostWithAuthor (post : Post) (userId : Option Nat) (s : MemStorage) :
    PostWithAuthor :=
  let author := getUser post.authorId s
  { id := post.id, title := post.title, content := post.content,
    excerpt := post.excerpt, authorId := post.authorId, image := post.image,
    tags := post.tags, published := post.published,
    createdAt := post.createdAt, updatedAt := post.updatedAt,
    author :=
      match author with
      | some a =>
          { id := a.id, displayName := a.displayName, username := a.username,
            avatar := a.avatar }
      | none =>
          { id := 0, displayName := "Unknown User", username := "unknown",
            avatar := none },
    likeCount := getPostLikeCount post.id s,
    commentCount := getCommentCount post.id s,
    isLiked := if idTruthy userId then isPostLiked (userId.getD 0) post.id s else false,
    isBookmarked := if idTruthy userId then isPostBookmarked (userId.getD 0) post.id s else false }

-- Post methods

/-- `getPosts`: published posts, newest first, sliced by offset/limit,
each enriched. -/
def getPosts (limit offset : Nat) (userId : Option Nat) (s : MemStorage) :
    List PostWithAuthor :=
  let allPosts :=
    jsSlice (sortByDesc Post.createdAt (s.posts.filter (fun p => p.published)))
      offset (offset + limit)
  allPosts.map (fun p => enrichPostWithAuthor p userId s)

/-- `getPost`: absent when the id does not resolve or the post is not
published. -/
def getPost (id : Nat) (userId : Option Nat) (s : MemStorage) :
    Option PostWithAuthor :=
  match s.posts.find? (fun p => p.id == id) with
  | none => none
  | some post =>
      if !post.published then none
      else some (enrichPostWithAuthor post userId s)

/-- `getPostsByAuthor`. -/
def getPostsByAuthor (authorId : Nat) (userId : Option Nat) (s : MemStorage) :
    List PostWithAuthor :=
  let authorPosts :=
    sortByDesc Post.createdAt
      (s.posts.filter (fun p => p.authorId == authorId && p.published))
  authorPosts.map (fun p => enrichPostWithAuthor p userId s)

/-- `getPostsByTag`: exact tag membership (`post.tags?.includes(tag)`;
absent tags are falsy). -/
def getPostsByTag (tag : String) (userId : Option Nat) (s : MemStorage) :
    List PostWithAuthor :=
  let taggedPosts :=
    sortByDesc Post.createdAt
      (s.posts.filter (fun p => p.published && (p.tags.getD []).contains tag))
  taggedPosts.map (fun p => enrichPostWithAuthor p userId s)

/-- `createPost`: next id, stamps both timestamps with now, published
defaults to true.  (`postData.tags || null` is the identity on the model:
an empty array is truthy in JS.) -/
def createPost (postData : InsertPost) (now : Nat) (s : MemStorage) :
    Post × MemStorage :=
  let id := s.currentId.posts
  let post : Post :=
    { title := postData.title, content := postData.content,
      excerpt := postData.excerpt, authorId := postData.authorId, id := id,
      image := orNullStr postData.image,
      tags := postData.tags,
      published := postData.published.getD true,
      createdAt := now, updatedAt := now }
  (post,
   { s with posts := s.posts ++ [post],
            currentId := { s.currentId with posts := id + 1 } })

/-- `updatePost`: spread of the existing post with the supplied fields,
then `updatedAt` stamped with now; absent id yields absent and no change.
The map entry is replaced in place. -/
def updatePost (id : Nat) (postData : PostUpdate) (now : Nat) (s : MemStorage) :
    Option Post × MemStorage :=
  match s.posts.find? (fun p => p.id == id) with
  | none => (none, s)
  | some existingPost =>
      let updatedPost : Post :=
        { id := existingPost.id
          title := postData.title.getD existingPost.title
          content := postData.content.getD existingPost.content
          excerpt := postData.excerpt.getD existingPost.excerpt
          authorId := postData.authorId.getD existingPost.authorId
          image := postData.image.getD existingPost.image
          tags := postData.tags.getD existingPost.tags
          published := postData.published.getD existingPost.published
          createdAt := existingPost.createdAt
          updatedAt := now }
      (some updatedPost,
       { s with posts := s.posts.map (fun p => if p.id == id then updatedPost else p) })

/-- `deletePost`: refused (false, no change) when the id does not resolve
or the acting user is not the author; otherwise the entry is deleted. -/
def deletePost (id authorId : Nat) (s : MemStorage) : Bool × MemStorage :=
  match s.posts.find? (fun p => p.id == id) with
  | none => (false, s)
  | some post =>
      if post.authorId != authorId then (false, s)
      else (true, { s with posts := s.posts.eraseP (fun p => p.id == id) })

/-- The search filter of `searchPosts`: published and a case-insensitive
substring match on title, content or any tag. -/
def searchMatches (lowerQuery : String) (p : Post) : Bool :=
  p.published &&
    (strIncludes (strToLower p.title) lowerQuery ||
     strIncludes (strToLower p.content) lowerQuery ||
     (p.tags.getD []).any (fun t => strIncludes (strToLower t) lowerQuery))

/-- `searchPosts`. -/
def searchPosts (query : String) (userId : Option Nat) (s : MemStorage) :
    List PostWithAuthor :=
  let lowerQuery := strToLower query
  let matchingPosts :=
    sortByDesc Post.createdAt (s.posts.filter (searchMatches lowerQuery))
  matchingPosts.map (fun p => enrichPostWithAuthor p userId s)

-- Like methods

/-- `likePost`: returns the existing like when present, otherwise creates
one. -/
def likePost (userId postId now : Nat) (s : MemStorage) : Like × MemStorage :=
  match s.likes.find? (fun l => l.userId == userId && l.postId == postId) with
  | some existing => (existing, s)
  | none =>
      let id := s.currentId.likes
      let like : Like := { id := id, userId := userId, postId := postId, createdAt := now }
      (like,
       { s with likes := s.likes ++ [like],
                currentId := { s.currentId with likes := id + 1 } })

/-- `unlikePost`: false and no change when no like exists; otherwise the
found entry is deleted. -/
def unlikePost (userId postId : Nat) (s : MemStorage) : Bool × MemStorage :=
  match s.likes.find? (fun l => l.userId == userId && l.postId == postId) with
  | none => (false, s)
  | some _ =>
      (true,
       { s with likes := s.likes.eraseP (fun l => l.userId == userId && l.postId == postId) })

-- Follow methods

/-- `followUser`: throws on self-follow, returns the existing relation if
present, otherwise creates one. -/
def followUser (followerId followingId now : Nat) (s : MemStorage) :
    Except String (Follow × MemStorage) :=
  if followerId == followingId then
    Except.error "Cannot follow yourself"
  else
    match s.follows.find?
        (fun f => f.followerId == followerId && f.followingId == followingId) with
    | some existing => Except.ok (existing, s)
    | none =>
        let id := s.currentId.follows
        let follow : Follow :=
          { id := id, followerId := followerId, followingId := followingId, createdAt := now }
        Except.ok
          (follow,
           { s with follows := s.follows ++ [follow],
                    currentId := { s.currentId with follows := id + 1 } })

-- Message methods

/-- `sendMessage`: next id, read flag defaults to false. -/
def sendMessage (messageData : InsertMessage) (now : Nat) (s : MemStorage) :
    Message × MemStorage :=
  let id := s.currentId.messages
  let message : Message :=
    { id := id, senderId := messageData.senderId,
      receiverId := messageData.receiverId, content := messageData.content,
      isRead := messageData.isRead.getD false, createdAt := now }
  (message,
   { s with messages := s.messages ++ [message],
            currentId := { s.currentId with messages := id + 1 } })

/-- Whether a message involves the given user as sender or receiver. -/
def involves (userId : Nat) (m : Message) : Bool :=
  m.senderId == userId || m.receiverId == userId

/-- The other party of a message from the point of view of `userId`. -/
def otherParty (userId : Nat) (m : Message) : Nat :=
  if m.senderId == userId then m.receiverId else m.senderId

/-- The unread count computed per conversation: messages from the other
party to this user with the read flag off, over the whole message map. -/
def unreadFrom (otherUserId userId : Nat) (all : List Message) : Nat :=
  (all.filter
    (fun m => m.senderId == otherUserId && m.receiverId == userId && !m.isRead)).length

/-- One entry of the conversation map keyed by the other party id. -/
structure ConvEntry where
  otherUserId : Nat
  lastMessage : Message
  unreadCount : Nat
deriving Repr, DecidableEq

/-- The conversation-map entry inserted for a newly seen other party:
the message at hand as last message, and the separately computed unread
count over the whole message map. -/
def mkConvEntry (userId : Nat) (all : List Message) (message : Message) : ConvEntry :=
  { otherUserId := otherParty userId message, lastMessage := message,
    unreadCount := unreadFrom (otherParty userId message) userId all }

/-- The loop of `getConversations` building the conversation map: scans
the sorted messages and inserts an entry the first time each other-party
id is seen. -/
def buildConversationMap (userId : Nat) (all : List Message) :
    List Message → List ConvEntry → List ConvEntry
  | [], acc => acc
  | message :: rest, acc =>
      if acc.any (fun e => e.otherUserId == otherParty userId message) then
        buildConversationMap userId all rest acc
      else
        buildConversationMap userId all rest (acc ++ [mkConvEntry userId all message])

/-- The conversation built from a map entry: absent when the participant
user does not resolve, otherwise the participant summary with the entry
data. -/
def convOf (s : MemStorage) (e : ConvEntry) : Option Conversation :=
  (getUser e.otherUserId s).map (fun participant =>
    { participant :=
        { id := participant.id, displayName := participant.displayName,
          username := participant.username, avatar := participant.avatar },
      lastMessage := e.lastMessage,
      unreadCount := e.unreadCount })

/-- `getConversations`: newest-first scan of the messages involving the
user, one entry per other party, dropped when the participant user does
not resolve, sorted by last-message time descending. -/
def getConversations (userId : Nat) (s : MemStorage) : List Conversation :=
  let userMessages :=
    sortByDesc Message.createdAt (s.messages.filter (involves userId))
  let convMap := buildConversationMap userId s.messages userMessages []
  let conversations := convMap.filterMap (convOf s)
  sortByDesc (fun c => c.lastMessage.createdAt) conversations

/-- The filter of `markMessagesAsRead`: unread messages from the other
party to this user. -/
def toMark (userId otherUserId : Nat) (m : Message) : Bool :=
  m.senderId == otherUserId && m.receiverId == userId && !m.isRead

/-- `markMessagesAsRead`: flips the read flag on every matching message in
place and reports whether any matched. -/
def markMessagesAsRead (userId otherUserId : Nat) (s : MemStorage) :
    Bool × MemStorage :=
  let messagesToMark := s.messages.filter (toMark userId otherUserId)
  let setRead := fun (m : Message) =>
    if toMark userId otherUserId m then { m with isRead := true } else m
  (decide (messagesToMark.length > 0), { s with messages := s.messages.map setRead })

/-- `getUnreadMessageCount`. -/
def getUnreadMessageCount (userId : Nat) (s : MemStorage) : Nat :=
  (s.messages.filter (fun m => m.receiverId == userId && !m.isRead)).length

/-- The common shape of the three unsliced listing modes: filter the post
map, sort newest first, enrich each post.  `searchPosts`,
`getPostsByTag` and `getPostsByAuthor` are each definitionally of this
shape with their own filter. -/
def listModeResult (cond : Post → Bool) (v : Option Nat) (s : MemStorage) :
    List PostWithAuthor :=
  (sortByDesc Post.createdAt (s.posts.filter cond)).map
    (fun p => enrichPostWithAuthor p v s)

-- Concrete sample data, used to instantiate the theorems below.

/-- Sample user Alice (id 1). -/
def aliceU : User :=
  { id := 1, email := "alice@x.com", username := "alice", password := "h1",
    displayName := "Alice", bio := none, avatar := none, createdAt := 10 }

/-- Sample user Bob (id 2). -/
def bobU : User :=
  { id := 2, email := "bob@x.com", username := "bob", password := "h2",
    displayName := "Bob", bio := none, avatar := none, createdAt := 20 }

/-- Sample published post by Alice. -/
def samplePost1 : Post :=
  { id := 1, title := "Hello", content := "World", excerpt := "World",
    authorId := 1, image := none, tags := some ["intro"], published := true,
    createdAt := 100, updatedAt := 100 }

/-- Sample unpublished draft by Alice. -/
def samplePost2 : Post :=
  { id := 2, title := "Draft", content := "Secret", excerpt := "s",
    authorId := 1, image := none, tags := none, published := false,
    createdAt := 200, updatedAt := 200 }

/-- A concrete populated store: two users, two posts, one like, one
comment, one bookmark, one follow and three unread messages from Alice to
Bob. -/
def demoStore : MemStorage :=
  { users := [aliceU, bobU], posts := [samplePost1, samplePost2],
    likes := [{ id := 1, userId := 2, postId := 1, createdAt := 150 }],
    comments := [{ id := 1, postId := 1, userId := 2, content := "nice", createdAt := 160 }],
    bookmarks := [{ id := 1, userId := 2, postId := 1, createdAt := 170 }],
    follows := [{ id := 1, followerId := 1, followingId := 2, createdAt := 30 }],
    messages := [{ id := 1, senderId := 1, receiverId := 2, content := "m1", isRead := false, createdAt := 100 },
                 { id := 2, senderId := 1, receiverId := 2, content := "m2", isRead := false, createdAt := 200 },
                 { id := 3, senderId := 1, receiverId := 2, content := "m3", isRead := false, createdAt := 300 }],
    currentId := { users := 3, posts := 3, likes := 2, comments := 2,
                   bookmarks := 2, follows := 2, messages := 4 } }

/-!
## General lemmas about the modelling combinators
-/

theorem sortByDesc_perm {α : Type} (f : α → Nat) (l : List α) :
    (sortByDesc f l).Perm l :=
  List.perm_insertionSort _ _

theorem mem_sortByDesc {α : Type} (f : α → Nat) (l : List α) {a : α} :
    a ∈ sortByDesc f l ↔ a ∈ l :=
  List.mem_insertionSort _

theorem sortByDesc_sorted {α : Type} (f : α → Nat) (l : List α) :
    (sortByDesc f l).Pairwise (fun a b => f b ≤ f a) :=
  List.sorted_insertionSort (descRel f) l

theorem length_sortByDesc {α : Type} (f : α → Nat) (l : List α) :
    (sortByDesc f l).length = l.length :=
  List.length_insertionSort _ _

theorem jsSlice_sublist {α : Type} (l : List α) (a b : Nat) :
    (jsSlice l a b).Sublist l :=
  (List.drop_sublist _ _).trans (List.take_sublist _ _)

theorem enrich_toPost (p : Post) (v : Option Nat) (s : MemStorage) :
    (enrichPostWithAuthor p v s).toPost = p :=
  rfl

theorem eraseP_key_ne {α : Type} (f : α → Nat) (k : Nat) :
    ∀ l : List α, (l.map f).Nodup →
      ∀ q ∈ l.eraseP (fun x => f x == k), f q ≠ k := by
  intro l
  induction l with
  | nil => intro _ q hq; simp [List.eraseP] at hq
  | cons x rest ih =>
      intro hnd q hq
      rw [List.eraseP_cons] at hq
      rw [List.map_cons, List.nodup_cons] at hnd
      obtain ⟨hx, hrest⟩ := hnd
      cases hxk : (f x == k) with
      | true =>
          rw [hxk, cond_true] at hq
          intro hqk
          have hfx : f x = k := by simpa using hxk
          exact hx (hfx ▸ hqk ▸ List.mem_map_of_mem f hq)
      | false =>
          rw [hxk, cond_false] at hq
          rcases List.mem_cons.mp hq with rfl | hq2
          · simpa using hxk
          · exact ih hrest q hq2

theorem getPosts_sound (limit offset : Nat) (v : Option Nat) (s : MemStorage) :
    ∀ e ∈ getPosts limit offset v s,
      ∃ p ∈ s.posts, e.toPost = p ∧ p.published = true := by
  intro e he
  rcases List.mem_map.mp he with ⟨p, hp, rfl⟩
  have hp2 : p ∈ sortByDesc Post.createdAt (s.posts.filter (fun q => q.published)) :=
    (jsSlice_sublist _ _ _).subset hp
  rcases List.mem_filter.mp ((mem_sortByDesc _ _).mp hp2) with ⟨hmem, hpub⟩
  exact ⟨p, hmem, enrich_toPost p v s, hpub⟩

/-!
## Claim theorems
-/

/-- C9: `getPost` returns a value iff the id resolves to a stored post
with `published = true`; a stored but unpublished post yields the same
absent sentinel (`none`) as a missing id, so at the store level an
unpublished post is indistinguishable from a nonexistent one, whoever the
viewer is. -/
theorem getPost_published_gate (id : Nat) (v : Option Nat) (s : MemStorage) :
    ((getPost id v s).isSome = true ↔
      ∃ p, s.posts.find? (fun q => q.id == id) = some p ∧ p.published = true) ∧
    (∀ p, s.posts.find? (fun q => q.id == id) = some p → p.published = false →
      getPost id v s = none) ∧
    (s.posts.find? (fun q => q.id == id) = none → getPost id v s = none) := by
  unfold getPost
  cases hf : s.posts.find? (fun q => q.id == id) with
  | none =>
      refine ⟨?_, ?_, ?_⟩
      · simp
      · intro p hp; simp at hp
      · intro _; rfl
  | some p =>
      refine ⟨?_, ?_, ?_⟩
      · cases hpub : p.published with
        | false => simp [hpub]
        | true => simp [hpub]
      · intro p2 hp2 hpub
        have hpp : p = p2 := by simpa using hp2
        subst hpp
        simp [hpub]
      · intro h; cases h

/-- Instantiation of the C9 theorem: in the sample store the unpublished
draft (id 2) is absent, while the published post (id 1) is present. -/
theorem getPost_published_gate_witness :
    getPost 2 none demoStore = none ∧ (getPost 1 none demoStore).isSome = true :=
  ⟨(getPost_published_gate 2 none demoStore).2.1 samplePost2 (by decide) (by decide),
   ((getPost_published_gate 1 none demoStore).1).mpr ⟨samplePost1, by decide, by decide⟩⟩

/-- C10: `updatePost` performs no ownership check: for every existing post
(no acting user is even supplied) it returns the merged post, which keeps
the stored id and creation time, takes every supplied field from the
update record and the rest from the stored post, and stamps `updatedAt`
with the current time; the post map entry is replaced in place and every
other part of the store is untouched; a non-resolving id returns the
absent sentinel and changes nothing. -/
theorem updatePost_spec (id now : Nat) (d : PostUpdate) (s : MemStorage) :
    (s.posts.find? (fun p => p.id == id) = none → updatePost id d now s = (none, s)) ∧
    (∀ p, s.posts.find? (fun q => q.id == id) = some p →
      ∃ p2,
        (updatePost id d now s).1 = some p2 ∧
        p2.id = p.id ∧ p2.createdAt = p.createdAt ∧ p2.updatedAt = now ∧
        p2.title = d.title.getD p.title ∧
        p2.content = d.content.getD p.content ∧
        p2.excerpt = d.excerpt.getD p.excerpt ∧
        p2.authorId = d.authorId.getD p.authorId ∧
        p2.image = d.image.getD p.image ∧
        p2.tags = d.tags.getD p.tags ∧
        p2.published = d.published.getD p.published ∧
        (∀ i : Nat, (updatePost id d now s).2.posts[i]? =
          (s.posts[i]?).map (fun q => if q.id == id then p2 else q)) ∧
        (updatePost id d now s).2.users = s.users ∧
        (updatePost id d now s).2.likes = s.likes ∧
        (updatePost id d now s).2.comments = s.comments ∧
        (updatePost id d now s).2.bookmarks = s.bookmarks ∧
        (updatePost id d now s).2.follows = s.follows ∧
        (updatePost id d now s).2.messages = s.messages ∧
        (updatePost id d now s).2.currentId = s.currentId) := by
  unfold updatePost
  cases hf : s.posts.find? (fun p => p.id == id) with
  | none =>
      exact ⟨fun _ => rfl, fun p hp => by cases hp⟩
  | some existingPost =>
      refine ⟨?_, ?_⟩
      · intro h; cases h
      intro p hp
      have hpp : existingPost = p := by simpa using hp
      subst hpp
      refine ⟨_, rfl, rfl, rfl, rfl, rfl, rfl, rfl, rfl, rfl, rfl, rfl, ?_,
        rfl, rfl, rfl, rfl, rfl, rfl, rfl⟩
      intro i
      exact List.getElem?_map _ _ _

/-- Instantiation of the C10 theorem: updating the title of post 1 in the
sample store keeps id and creation time and stamps the update time. -/
theorem updatePost_spec_witness :
    ∃ p2, (updatePost 1 { title := some "New" } 500 demoStore).1 = some p2 ∧
      p2.id = samplePost1.id ∧ p2.createdAt = samplePost1.createdAt ∧ p2.updatedAt = 500 := by
  obtain ⟨p2, h1, h2, h3, h4, _hrest⟩ :=
    (updatePost_spec 1 500 { title := some "New" } demoStore).2 samplePost1 (by decide)
  exact ⟨p2, h1, h2, h3, h4⟩

theorem likePost_found (u p t : Nat) (s : MemStorage) (l : Like)
    (h : s.likes.find? (fun x => x.userId == u && x.postId == p) = some l) :
    likePost u p t s = (l, s) := by
  unfold likePost
  rw [h]

theorem likePost_new (u p t : Nat) (s : MemStorage)
    (h : s.likes.find? (fun x => x.userId == u && x.postId == p) = none) :
    likePost u p t s =
      ({ id := s.currentId.likes, userId := u, postId := p, createdAt := t },
       { s with
          likes := s.likes ++ [{ id := s.currentId.likes, userId := u, postId := p, createdAt := t }],
          currentId := { s.currentId with likes := s.currentId.likes + 1 } }) := by
  unfold likePost
  rw [h]

theorem unlikePost_none (u p : Nat) (s : MemStorage)
    (h : s.likes.find? (fun x => x.userId == u && x.postId == p) = none) :
    unlikePost u p s = (false, s) := by
  unfold unlikePost
  rw [h]

theorem followUser_self (a t : Nat) (s : MemStorage) :
    followUser a a t s = Except.error "Cannot follow yourself" := by
  unfold followUser
  rw [if_pos (by simp)]

theorem followUser_found (a b t : Nat) (s : MemStorage) (f : Follow)
    (hne : (a == b) = false)
    (h : s.follows.find? (fun x => x.followerId == a && x.followingId == b) = some f) :
    followUser a b t s = Except.ok (f, s) := by
  unfold followUser
  rw [if_neg (by simp [hne]), h]

theorem followUser_new (a b t : Nat) (s : MemStorage)
    (hne : (a == b) = false)
    (h : s.follows.find? (fun x => x.followerId == a && x.followingId == b) = none) :
    followUser a b t s =
      Except.ok
        ({ id := s.currentId.follows, followerId := a, followingId := b, createdAt := t },
         { s with
            follows := s.follows ++
              [{ id := s.currentId.follows, followerId := a, followingId := b, createdAt := t }],
            currentId := { s.currentId with follows := s.currentId.follows + 1 } }) := by
  unfold followUser
  rw [if_neg (by simp [hne]), h]

/-- C7: `deletePost` returns false and leaves the store unchanged when the
id does not resolve or the acting user is not the author; when the acting
user is the author it succeeds, no post with that id remains in the map,
and no subsequent `getPosts` result contains the id. -/
theorem deletePost_spec (id actingUserId : Nat) (s : MemStorage)
    (hids : (s.posts.map Post.id).Nodup) :
    (s.posts.find? (fun p => p.id == id) = none →
      deletePost id actingUserId s = (false, s)) ∧
    (∀ p, s.posts.find? (fun q => q.id == id) = some p → p.authorId ≠ actingUserId →
      deletePost id actingUserId s = (false, s)) ∧
    (∀ p, s.posts.find? (fun q => q.id == id) = some p → p.authorId = actingUserId →
      (deletePost id actingUserId s).1 = true ∧
      (∀ q ∈ (deletePost id actingUserId s).2.posts, q.id ≠ id) ∧
      (∀ limit offset v, ∀ e ∈ getPosts limit offset v (deletePost id actingUserId s).2,
        e.id ≠ id)) := by
  unfold deletePost
  cases hf : s.posts.find? (fun p => p.id == id) with
  | none =>
      refine ⟨fun _ => rfl, ?_, ?_⟩ <;> intro p hp <;> cases hp
  | some post =>
      refine ⟨?_, ?_, ?_⟩
      · intro h; cases h
      · intro p hp hne
        have hpp : post = p := by simpa using hp
        subst hpp
        have hb : (post.authorId != actingUserId) = true := by simpa [bne_iff_ne] using hne
        simp [hb]
      · intro p hp heq
        have hpp : post = p := by simpa using hp
        subst hpp
        have hb : (post.authorId != actingUserId) = false := by rw [heq]; simp
        simp only [hb, Bool.false_eq_true, if_false]
        refine ⟨trivial, ?_, ?_⟩
        · intro q hq
          exact eraseP_key_ne Post.id id s.posts hids q hq
        · intro limit offset v e he
          rcases getPosts_sound limit offset v _ e he with ⟨p2, hp2, htp, _⟩
          have hne2 : p2.id ≠ id := eraseP_key_ne Post.id id s.posts hids p2 hp2
          have hid : e.id = p2.id := congrArg Post.id htp
          rw [hid]
          exact hne2

/-- Instantiation of the C7 theorem: in the sample store Bob (id 2) cannot
delete the post of Alice, and Alice can. -/
theorem deletePost_spec_witness :
    deletePost 1 2 demoStore = (false, demoStore) ∧ (deletePost 1 1 demoStore).1 = true :=
  ⟨(deletePost_spec 1 2 demoStore (by decide)).2.1 samplePost1 (by decide) (by decide),
   ((deletePost_spec 1 1 demoStore (by decide)).2.2 samplePost1 (by decide) (by decide)).1⟩

/-- C6: liking is idempotent — when a like by the same user for the same
post already exists, `likePost` returns that record and changes nothing,
so liking twice starting from no record yields exactly one record (the
second call returns the record created by the first and leaves the store
as it was); and `unlikePost` on a never-liked post returns false and
leaves the store unchanged. -/
theorem like_unlike_spec (u p t1 t2 : Nat) (s : MemStorage) :
    (∀ l, s.likes.find? (fun x => x.userId == u && x.postId == p) = some l →
      likePost u p t1 s = (l, s)) ∧
    (s.likes.countP (fun x => x.userId == u && x.postId == p) = 0 →
      ∀ l1 s1, likePost u p t1 s = (l1, s1) →
        likePost u p t2 s1 = (l1, s1) ∧
        s1.likes.countP (fun x => x.userId == u && x.postId == p) = 1) ∧
    (s.likes.find? (fun x => x.userId == u && x.postId == p) = none →
      unlikePost u p s = (false, s)) := by
  refine ⟨fun l h => likePost_found u p t1 s l h, ?_, fun h => unlikePost_none u p s h⟩
  intro h0 l1 s1 heq
  have hfind : s.likes.find? (fun x => x.userId == u && x.postId == p) = none :=
    List.find?_eq_none.mpr (fun x hx => List.countP_eq_zero.mp h0 x hx)
  rw [likePost_new u p t1 s hfind] at heq
  injection heq with heq1 heq2
  subst heq1
  subst heq2
  constructor
  · apply likePost_found
    show (s.likes ++ [_]).find? _ = _
    rw [List.find?_append, hfind]
    simp [List.find?_cons]
  · show (s.likes ++ [_]).countP _ = 1
    rw [List.countP_append, h0]
    simp [List.countP_cons]

/-- Instantiation of the C6 theorem: liking twice from an empty store
leaves exactly one like record, and unliking a never-liked pair in the
sample store fails and changes nothing. -/
theorem like_unlike_spec_witness :
    ((likePost 2 1 400 emptyStorage).2.likes.countP
       (fun (x : Like) => x.userId == 2 && x.postId == 1) = 1) ∧
    unlikePost 1 2 demoStore = (false, demoStore) :=
  ⟨((like_unlike_spec 2 1 400 500 emptyStorage).2.1 (by decide)
      (likePost 2 1 400 emptyStorage).1 (likePost 2 1 400 emptyStorage).2 rfl).2,
   (like_unlike_spec 1 2 0 0 demoStore).2.2 (by decide)⟩

/-- C5: `followUser` of a user on themselves always raises the
self-follow error; for distinct users an existing relation is returned
unchanged (no duplicate is created), and any successful call preserves
the at-most-one-relation-per-pair invariant. -/
theorem followUser_spec (a b t : Nat) (s : MemStorage) :
    (followUser a a t s = Except.error "Cannot follow yourself") ∧
    (∀ f, a ≠ b →
      s.follows.find? (fun x => x.followerId == a && x.followingId == b) = some f →
      followUser a b t s = Except.ok (f, s)) ∧
    (∀ x y, s.follows.countP (fun g => g.followerId == x && g.followingId == y) ≤ 1 →
      ∀ r s2, followUser a b t s = Except.ok (r, s2) →
        s2.follows.countP (fun g => g.followerId == x && g.followingId == y) ≤ 1) := by
  refine ⟨followUser_self a t s, ?_, ?_⟩
  · intro f hne hfind
    exact followUser_found a b t s f (by simp [hne]) hfind
  · intro x y hle r s2 hok
    by_cases hab : a = b
    · subst hab
      rw [followUser_self a t s] at hok
      cases hok
    · have hab2 : (a == b) = false := by simp [hab]
      cases hfind : s.follows.find? (fun g => g.followerId == a && g.followingId == b) with
      | some ex =>
          rw [followUser_found a b t s ex hab2 hfind] at hok
          injection hok with h
          injection h with h1 h2
          subst h2
          exact hle
      | none =>
          rw [followUser_new a b t s hab2 hfind] at hok
          injection hok with h
          injection h with h1 h2
          subst h2
          show (s.follows ++
            [({ id := s.currentId.follows, followerId := a, followingId := b,
                createdAt := t } : Follow)]).countP
              (fun (g : Follow) => g.followerId == x && g.followingId == y) ≤ 1
          rw [List.countP_append]
          by_cases hx : a = x
          · by_cases hy : b = y
            · subst hx
              subst hy
              have h0 : s.follows.countP (fun g => g.followerId == a && g.followingId == b) = 0 :=
                List.countP_eq_zero.mpr (List.find?_eq_none.mp hfind)
              rw [h0]
              simp [List.countP_cons]
            · simpa [List.countP_cons, hy] using hle
          · simpa [List.countP_cons, hx] using hle

/-- Instantiation of the C5 theorem: self-follow fails, and re-following
an existing relation in the sample store returns it unchanged. -/
theorem followUser_spec_witness :
    followUser 1 1 40 demoStore = Except.error "Cannot follow yourself" ∧
    followUser 1 2 40 demoStore =
      Except.ok ({ id := 1, followerId := 1, followingId := 2, createdAt := 30 }, demoStore) :=
  ⟨(followUser_spec 1 1 40 demoStore).1,
   (followUser_spec 1 2 40 demoStore).2.1 _ (by decide) (by decide)⟩

/-- C8: immediately after `createUser`, looking the new user up by email
or by username returns exactly that user, provided no previously created
user shares the email or the username. -/
theorem createUser_lookup_spec (hash : String → String) (d : InsertUser) (now : Nat)
    (s : MemStorage)
    (hemail : ∀ u ∈ s.users, u.email ≠ d.email)
    (husername : ∀ u ∈ s.users, u.username ≠ d.username) :
    getUserByEmail d.email (createUser hash d now s).2 = some (createUser hash d now s).1 ∧
    getUserByUsername d.username (createUser hash d now s).2 = some (createUser hash d now s).1 := by
  constructor
  · show ((s.users ++ [_]).find? (fun (u : User) => u.email == d.email)) = _
    have h1 : s.users.find? (fun u => u.email == d.email) = none :=
      List.find?_eq_none.mpr (fun u hu => by simpa using hemail u hu)
    rw [List.find?_append, h1]
    simp only [List.find?_cons, beq_self_eq_true]
    simp only [Option.none_or]
    rfl
  · show ((s.users ++ [_]).find? (fun (u : User) => u.username == d.username)) = _
    have h1 : s.users.find? (fun u => u.username == d.username) = none :=
      List.find?_eq_none.mpr (fun u hu => by simpa using husername u hu)
    rw [List.find?_append, h1]
    simp only [List.find?_cons, beq_self_eq_true]
    simp only [Option.none_or]
    rfl

theorem enrich_likeCount (p : Post) (v : Option Nat) (s : MemStorage) :
    (enrichPostWithAuthor p v s).likeCount = s.likes.countP (fun l => l.postId == p.id) :=
  (List.countP_eq_length_filter _ _).symm

theorem enrich_commentCount (p : Post) (v : Option Nat) (s : MemStorage) :
    (enrichPostWithAuthor p v s).commentCount = s.comments.countP (fun c => c.postId == p.id) :=
  (List.countP_eq_length_filter _ _).symm

theorem enrich_isBookmarked (p : Post) (v : Nat) (hv : v ≠ 0) (s : MemStorage) :
    ((enrichPostWithAuthor p (some v) s).isBookmarked = true ↔
      ∃ b ∈ s.bookmarks, b.userId = v ∧ b.postId = p.id) := by
  have ht : idTruthy (some v) = true := by simp [idTruthy, hv]
  show (if idTruthy (some v) = true then isPostBookmarked ((some v).getD 0) p.id s else false)
      = true ↔ _
  rw [ht]
  simp only [if_true]
  unfold isPostBookmarked
  rw [List.any_eq_true]
  constructor
  · rintro ⟨b, hb, hpred⟩
    rw [Bool.and_eq_true] at hpred
    exact ⟨b, hb, by simpa using hpred.1, by simpa using hpred.2⟩
  · rintro ⟨b, hb, h1, h2⟩
    exact ⟨b, hb, by simp [h1, h2]⟩

/-- C1: every enriched post returned by `getPosts` or `getPost` carries a
`likeCount` equal to the number of Like records whose `postId` is the
post id, a `commentCount` equal to the number of Comment records for it,
and (for a real viewer) `isBookmarked` true iff a Bookmark record for
(viewer, post) exists. -/
theorem enriched_post_counts_spec (limit offset id v : Nat) (hv : v ≠ 0) (s : MemStorage) :
    (∀ e ∈ getPosts limit offset (some v) s,
      e.likeCount = s.likes.countP (fun l => l.postId == e.id) ∧
      e.commentCount = s.comments.countP (fun c => c.postId == e.id) ∧
      (e.isBookmarked = true ↔ ∃ b ∈ s.bookmarks, b.userId = v ∧ b.postId = e.id)) ∧
    (∀ e, getPost id (some v) s = some e →
      e.likeCount = s.likes.countP (fun l => l.postId == e.id) ∧
      e.commentCount = s.comments.countP (fun c => c.postId == e.id) ∧
      (e.isBookmarked = true ↔ ∃ b ∈ s.bookmarks, b.userId = v ∧ b.postId = e.id)) := by
  constructor
  · intro e he
    rcases List.mem_map.mp he with ⟨p, _, rfl⟩
    exact ⟨enrich_likeCount p (some v) s, enrich_commentCount p (some v) s,
           enrich_isBookmarked p v hv s⟩
  · intro e he
    unfold getPost at he
    cases hf : s.posts.find? (fun p => p.id == id) with
    | none => rw [hf] at he; cases he
    | some p =>
        rw [hf] at he
        cases hpub : p.published with
        | false => simp [hpub] at he
        | true =>
            simp only [hpub, Bool.not_true, Bool.false_eq_true, if_false] at he
            injection he with he1
            subst he1
            exact ⟨enrich_likeCount p (some v) s, enrich_commentCount p (some v) s,
                   enrich_isBookmarked p v hv s⟩

/-- Instantiation of the C1 theorem: the enriched view of post 1 in the
sample store as seen by Bob. -/
theorem enriched_post_counts_spec_witness :
    getPost 1 (some 2) demoStore = some (enrichPostWithAuthor samplePost1 (some 2) demoStore) ∧
    (enrichPostWithAuthor samplePost1 (some 2) demoStore).likeCount =
      demoStore.likes.countP
        (fun l => l.postId == (enrichPostWithAuthor samplePost1 (some 2) demoStore).id) :=
  ⟨by decide,
   ((enriched_post_counts_spec 10 0 1 2 (by decide) demoStore).2 _ (by decide)).1⟩

theorem listModeResult_sound (cond : Post → Bool) (v : Option Nat) (s : MemStorage) :
    ∀ e ∈ listModeResult cond v s, ∃ p ∈ s.posts, e.toPost = p ∧ cond p = true := by
  intro e he
  rcases List.mem_map.mp he with ⟨p, hp, rfl⟩
  rcases List.mem_filter.mp ((mem_sortByDesc _ _).mp hp) with ⟨hps, hcond⟩
  exact ⟨p, hps, enrich_toPost p v s, hcond⟩

theorem listModeResult_complete (cond : Post → Bool) (v : Option Nat) (s : MemStorage) :
    ∀ p ∈ s.posts, cond p = true → ∃ e ∈ listModeResult cond v s, e.toPost = p := by
  intro p hp hc
  exact ⟨enrichPostWithAuthor p v s,
    List.mem_map_of_mem _ ((mem_sortByDesc _ _).mpr (List.mem_filter.mpr ⟨hp, hc⟩)),
    enrich_toPost p v s⟩

theorem listModeResult_sorted (cond : Post → Bool) (v : Option Nat) (s : MemStorage) :
    (listModeResult cond v s).Pairwise (fun a b => b.createdAt ≤ a.createdAt) :=
  List.Pairwise.map _ (fun _ _ h => h)
    (sortByDesc_sorted Post.createdAt (s.posts.filter cond))

theorem getPosts_full (v : Option Nat) (s : MemStorage) :
    getPosts s.posts.length 0 v s = listModeResult (fun p => p.published) v s := by
  unfold getPosts listModeResult jsSlice
  rw [List.drop_zero, Nat.zero_add, List.take_of_length_le]
  rw [length_sortByDesc]
  exact List.length_filter_le _ _

theorem getPosts_slice (limit offset : Nat) (v : Option Nat) (s : MemStorage) :
    getPosts limit offset v s =
      jsSlice (getPosts s.posts.length 0 v s) offset (offset + limit) := by
  rw [getPosts_full]
  unfold getPosts listModeResult jsSlice
  rw [← List.map_take, ← List.map_drop]

theorem setRead_pred (u o : Nat) (m : Message) :
    (((if toMark u o m then { m with isRead := true } else m).receiverId == u) &&
      !(if toMark u o m then { m with isRead := true } else m).isRead) =
    ((m.receiverId == u) && !m.isRead && !(m.senderId == o)) := by
  unfold toMark
  by_cases h1 : (m.senderId == o) = true <;>
    by_cases h2 : (m.receiverId == u) = true <;>
      by_cases h3 : m.isRead = true <;>
        simp [h1, h2, h3]

/-- C4: `markMessagesAsRead` flips the read flag on exactly the unread
messages from the given other party to the caller (pointwise; every other
message and every other store component is untouched), returns true iff
at least one message changed, and afterwards the unread count of the
caller counts exactly the unread messages from other senders — in
particular it is 0 when every unread message was from that party. -/
theorem markMessagesAsRead_spec (u o : Nat) (s : MemStorage) :
    (∀ i : Nat, (markMessagesAsRead u o s).2.messages[i]? =
      (s.messages[i]?).map (fun m => if toMark u o m then { m with isRead := true } else m)) ∧
    ((markMessagesAsRead u o s).1 = true ↔ ∃ m ∈ s.messages, toMark u o m = true) ∧
    ((markMessagesAsRead u o s).2.users = s.users ∧
     (markMessagesAsRead u o s).2.posts = s.posts ∧
     (markMessagesAsRead u o s).2.likes = s.likes ∧
     (markMessagesAsRead u o s).2.comments = s.comments ∧
     (markMessagesAsRead u o s).2.bookmarks = s.bookmarks ∧
     (markMessagesAsRead u o s).2.follows = s.follows ∧
     (markMessagesAsRead u o s).2.currentId = s.currentId) ∧
    (getUnreadMessageCount u (markMessagesAsRead u o s).2 =
      s.messages.countP (fun m => m.receiverId == u && !m.isRead && !(m.senderId == o))) ∧
    ((∀ m ∈ s.messages, m.receiverId = u → m.isRead = false → m.senderId = o) →
      getUnreadMessageCount u (markMessagesAsRead u o s).2 = 0) := by
  have hmsgs : (markMessagesAsRead u o s).2.messages =
      s.messages.map (fun m => if toMark u o m then { m with isRead := true } else m) := rfl
  have hcount : getUnreadMessageCount u (markMessagesAsRead u o s).2 =
      s.messages.countP (fun m => m.receiverId == u && !m.isRead && !(m.senderId == o)) := by
    show ((markMessagesAsRead u o s).2.messages.filter
        (fun m => m.receiverId == u && !m.isRead)).length = _
    rw [hmsgs, ← List.countP_eq_length_filter, List.countP_map]
    exact List.countP_congr (fun m _ => by
      simp only [Function.comp_apply, setRead_pred u o m])
  refine ⟨?_, ?_, ⟨rfl, rfl, rfl, rfl, rfl, rfl, rfl⟩, hcount, ?_⟩
  · intro i
    rw [hmsgs]
    exact List.getElem?_map _ _ _
  · show decide (0 < (s.messages.filter (toMark u o)).length) = true ↔ _
    rw [decide_eq_true_eq, List.length_pos_iff_exists_mem]
    constructor
    · rintro ⟨m, hm⟩
      rcases List.mem_filter.mp hm with ⟨hm1, hm2⟩
      exact ⟨m, hm1, hm2⟩
    · rintro ⟨m, hm1, hm2⟩
      exact ⟨m, List.mem_filter.mpr ⟨hm1, hm2⟩⟩
  · intro hall
    rw [hcount, List.countP_eq_zero]
    intro m hm hpred
    rw [Bool.and_eq_true, Bool.and_eq_true] at hpred
    obtain ⟨⟨hr, hnr⟩, hns⟩ := hpred
    have hru : m.receiverId = u := by simpa using hr
    have hread : m.isRead = false := by simpa using hnr
    have hso : m.senderId = o := hall m hm hru hread
    rw [hso] at hns
    simp at hns

/-- Instantiation of the C4 theorem: the spec scenario — Bob has three
unread messages from Alice; opening the conversation zeroes his unread
count. -/
theorem markMessagesAsRead_spec_witness :
    getUnreadMessageCount 2 demoStore = 3 ∧
    getUnreadMessageCount 2 (markMessagesAsRead 2 1 demoStore).2 = 0 :=
  ⟨by decide, (markMessagesAsRead_spec 2 1 demoStore).2.2.2.2 (by decide)⟩

/-- Instantiation of the C8 theorem: registering a third user in the
sample store makes them retrievable by email and username. -/
theorem createUser_lookup_spec_witness :
    getUserByEmail "carol@x.com"
      (createUser id { email := "carol@x.com", username := "carol", password := "pw",
                       displayName := "Carol", bio := none, avatar := none } 50 demoStore).2 =
      some (createUser id { email := "carol@x.com", username := "carol", password := "pw",
                            displayName := "Carol", bio := none, avatar := none } 50 demoStore).1 :=
  (createUser_lookup_spec id
    { email := "carol@x.com", username := "carol", password := "pw",
      displayName := "Carol", bio := none, avatar := none } 50 demoStore
    (by decide) (by decide)).1

/-- C2: every post-listing mode returns only published posts, sorted by
creation time descending; the free-text search mode returns exactly the
published posts with a case-insensitive substring match on title, content
or a tag, the tag mode exactly the published posts with the exact
case-sensitive tag, the author mode exactly the published posts of that
author — each of the three returning all matches with no limit/offset —
while the default feed equals the offset/limit slice of the full default
feed. -/
theorem post_listing_modes_spec (q tag : String) (authorId : Nat) (v : Option Nat)
    (limit offset : Nat) (s : MemStorage) :
    ((∀ e ∈ searchPosts q v s, e.published = true ∧
        ∃ p ∈ s.posts, e.toPost = p ∧ searchMatches (strToLower q) p = true) ∧
     (∀ p ∈ s.posts, searchMatches (strToLower q) p = true →
        ∃ e ∈ searchPosts q v s, e.toPost = p) ∧
     (searchPosts q v s).Pairwise (fun a b => b.createdAt ≤ a.createdAt)) ∧
    ((∀ e ∈ getPostsByTag tag v s, e.published = true ∧
        ∃ p ∈ s.posts, e.toPost = p ∧ (p.tags.getD []).contains tag = true) ∧
     (∀ p ∈ s.posts, p.published = true → (p.tags.getD []).contains tag = true →
        ∃ e ∈ getPostsByTag tag v s, e.toPost = p) ∧
     (getPostsByTag tag v s).Pairwise (fun a b => b.createdAt ≤ a.createdAt)) ∧
    ((∀ e ∈ getPostsByAuthor authorId v s, e.published = true ∧
        ∃ p ∈ s.posts, e.toPost = p ∧ p.authorId = authorId) ∧
     (∀ p ∈ s.posts, p.published = true → p.authorId = authorId →
        ∃ e ∈ getPostsByAuthor authorId v s, e.toPost = p) ∧
     (getPostsByAuthor authorId v s).Pairwise (fun a b => b.createdAt ≤ a.createdAt)) ∧
    ((∀ e ∈ getPosts limit offset v s, e.published = true) ∧
     (getPosts limit offset v s).Pairwise (fun a b => b.createdAt ≤ a.createdAt) ∧
     getPosts limit offset v s =
       jsSlice (getPosts s.posts.length 0 v s) offset (offset + limit)) := by
  refine ⟨⟨?_, ?_, ?_⟩, ⟨?_, ?_, ?_⟩, ⟨?_, ?_, ?_⟩, ⟨?_, ?_, ?_⟩⟩
  · intro e he
    rcases listModeResult_sound (searchMatches (strToLower q)) v s e he with ⟨p, hp, htp, hc⟩
    refine ⟨?_, p, hp, htp, hc⟩
    rw [show e.published = e.toPost.published from rfl, congrArg Post.published htp]
    unfold searchMatches at hc
    rw [Bool.and_eq_true] at hc
    exact hc.1
  · intro p hp hm
    exact listModeResult_complete (searchMatches (strToLower q)) v s p hp hm
  · exact listModeResult_sorted (searchMatches (strToLower q)) v s
  · intro e he
    rcases listModeResult_sound
      (fun p => p.published && (p.tags.getD []).contains tag) v s e he with ⟨p, hp, htp, hc⟩
    rw [Bool.and_eq_true] at hc
    obtain ⟨hpub, hcont⟩ := hc
    refine ⟨?_, p, hp, htp, hcont⟩
    rw [show e.published = e.toPost.published from rfl, congrArg Post.published htp]
    exact hpub
  · intro p hp h1 h2
    exact listModeResult_complete
      (fun p => p.published && (p.tags.getD []).contains tag) v s p hp
      (by rw [Bool.and_eq_true]; exact ⟨h1, h2⟩)
  · exact listModeResult_sorted (fun p => p.published && (p.tags.getD []).contains tag) v s
  · intro e he
    rcases listModeResult_sound
      (fun p => p.authorId == authorId && p.published) v s e he with ⟨p, hp, htp, hc⟩
    rw [Bool.and_eq_true] at hc
    obtain ⟨hauth, hpub⟩ := hc
    refine ⟨?_, p, hp, htp, by simpa using hauth⟩
    rw [show e.published = e.toPost.published from rfl, congrArg Post.published htp]
    exact hpub
  · intro p hp h1 h2
    exact listModeResult_complete
      (fun p => p.authorId == authorId && p.published) v s p hp
      (by rw [Bool.and_eq_true]; exact ⟨by simp [h2], h1⟩)
  · exact listModeResult_sorted (fun p => p.authorId == authorId && p.published) v s
  · intro e he
    rcases getPosts_sound limit offset v s e he with ⟨p, _, htp, hpub⟩
    rw [show e.published = e.toPost.published from rfl, congrArg Post.published htp]
    exact hpub
  · exact List.Pairwise.map _ (fun _ _ h => h)
      (List.Pairwise.sublist (jsSlice_sublist _ _ _)
        (sortByDesc_sorted Post.createdAt (s.posts.filter (fun p => p.published))))
  · exact getPosts_slice limit offset v s

/-- Instantiation of the C2 theorem: search for "wor" in the sample store
returns the published post, and a feed of limit 1 is the length-1 slice
of the full feed. -/
theorem post_listing_modes_spec_witness :
    (searchPosts "wor" (some 2) demoStore).Pairwise
      (fun a b => b.createdAt ≤ a.createdAt) ∧
    getPosts 1 0 none demoStore =
      jsSlice (getPosts demoStore.posts.length 0 none demoStore) 0 (0 + 1) :=
  ⟨(post_listing_modes_spec "wor" "intro" 1 (some 2) 10 0 demoStore).1.2.2,
   (post_listing_modes_spec "wor" "intro" 1 none 1 0 demoStore).2.2.2.2.2⟩

theorem mkConvEntry_key (u : Nat) (all : List Message) (m : Message) :
    (mkConvEntry u all m).otherUserId = otherParty u m :=
  rfl

theorem mem_bcm_of_mem_acc (userId : Nat) (all : List Message) :
    ∀ (msgs : List Message) (acc : List ConvEntry) (e : ConvEntry),
      e ∈ acc → e ∈ buildConversationMap userId all msgs acc := by
  intro msgs
  induction msgs with
  | nil => intro acc e h; exact h
  | cons m rest ih =>
      intro acc e h
      simp only [buildConversationMap]
      by_cases hc : (acc.any (fun x => x.otherUserId == otherParty userId m)) = true
      · rw [if_pos hc]
        exact ih acc e h
      · rw [if_neg hc]
        exact ih _ e (List.mem_append.mpr (Or.inl h))

theorem bcm_key_closed (userId : Nat) (all : List Message) :
    ∀ (msgs : List Message) (acc : List ConvEntry) (k : Nat),
      acc.any (fun e => e.otherUserId == k) = true →
      ∀ e ∈ buildConversationMap userId all msgs acc, e.otherUserId = k → e ∈ acc := by
  intro msgs
  induction msgs with
  | nil => intro acc k _ e he _; exact he
  | cons m rest ih =>
      intro acc k hk e he hek
      simp only [buildConversationMap] at he
      by_cases hc : (acc.any (fun x => x.otherUserId == otherParty userId m)) = true
      · rw [if_pos hc] at he
        exact ih acc k hk e he hek
      · rw [if_neg hc] at he
        have h2 : ((acc ++ [mkConvEntry userId all m]).any (fun x => x.otherUserId == k)) = true := by
          rw [List.any_append, hk]
          rfl
        rcases List.mem_append.mp (ih _ k h2 e he hek) with h3 | h3
        · exact h3
        · exfalso
          have hem : e = mkConvEntry userId all m := List.mem_singleton.mp h3
          have hk2 : otherParty userId m = k := by
            rw [← hek, hem, mkConvEntry_key]
          apply hc
          simp only [hk2]
          exact hk

theorem bcm_entry_shape (userId : Nat) (all : List Message) :
    ∀ (msgs : List Message) (acc : List ConvEntry),
      ∀ e ∈ buildConversationMap userId all msgs acc,
        e ∈ acc ∨ (e.lastMessage ∈ msgs ∧ e = mkConvEntry userId all e.lastMessage) := by
  intro msgs
  induction msgs with
  | nil => intro acc e he; exact Or.inl he
  | cons m rest ih =>
      intro acc e he
      simp only [buildConversationMap] at he
      by_cases hc : (acc.any (fun x => x.otherUserId == otherParty userId m)) = true
      · rw [if_pos hc] at he
        rcases ih acc e he with h | ⟨h1, h2⟩
        · exact Or.inl h
        · exact Or.inr ⟨List.mem_cons_of_mem m h1, h2⟩
      · rw [if_neg hc] at he
        rcases ih _ e he with h | ⟨h1, h2⟩
        · rcases List.mem_append.mp h with h3 | h3
          · exact Or.inl h3
          · have hem : e = mkConvEntry userId all m := List.mem_singleton.mp h3
            refine Or.inr ⟨?_, ?_⟩
            · rw [hem]
              exact List.mem_cons_self m rest
            · rw [hem]
              rfl
        · exact Or.inr ⟨List.mem_cons_of_mem m h1, h2⟩

theorem bcm_key_present (userId : Nat) (all : List Message) :
    ∀ (msgs : List Message) (acc : List ConvEntry) (m : Message), m ∈ msgs →
      ∃ e ∈ buildConversationMap userId all msgs acc,
        e.otherUserId = otherParty userId m := by
  intro msgs
  induction msgs with
  | nil => intro acc m h; cases h
  | cons m0 rest ih =>
      intro acc m hm
      simp only [buildConversationMap]
      rcases List.mem_cons.mp hm with rfl | hm2
      · by_cases hc : (acc.any (fun x => x.otherUserId == otherParty userId m)) = true
        · rw [if_pos hc]
          rcases List.any_eq_true.mp hc with ⟨e0, he0, hpe⟩
          exact ⟨e0, mem_bcm_of_mem_acc userId all rest acc e0 he0, by simpa using hpe⟩
        · rw [if_neg hc]
          exact ⟨mkConvEntry userId all m,
            mem_bcm_of_mem_acc userId all rest _ _
              (List.mem_append.mpr (Or.inr (List.mem_singleton.mpr rfl))),
            rfl⟩
      · by_cases hc : (acc.any (fun x => x.otherUserId == otherParty userId m0)) = true
        · rw [if_pos hc]
          exact ih acc m hm2
        · rw [if_neg hc]
          exact ih _ m hm2

theorem bcm_keys_nodup (userId : Nat) (all : List Message) :
    ∀ (msgs : List Message) (acc : List ConvEntry),
      (acc.map ConvEntry.otherUserId).Nodup →
      ((buildConversationMap userId all msgs acc).map ConvEntry.otherUserId).Nodup := by
  intro msgs
  induction msgs with
  | nil => intro acc h; exact h
  | cons m rest ih =>
      intro acc hnd
      simp only [buildConversationMap]
      by_cases hc : (acc.any (fun x => x.otherUserId == otherParty userId m)) = true
      · rw [if_pos hc]
        exact ih acc hnd
      · rw [if_neg hc]
        apply ih
        rw [List.map_append, List.nodup_append]
        refine ⟨hnd, by simp, ?_⟩
        intro a ha hb
        have ha2 : a = otherParty userId m := by
          simpa [mkConvEntry_key] using hb
        subst ha2
        rcases List.mem_map.mp ha with ⟨e0, he0, hke⟩
        exact hc (List.any_eq_true.mpr ⟨e0, he0, by simp [hke]⟩)

theorem bcm_last_max (userId : Nat) (all : List Message) :
    ∀ (msgs : List Message) (acc : List ConvEntry),
      msgs.Pairwise (fun a b => b.createdAt ≤ a.createdAt) →
      ∀ e ∈ buildConversationMap userId all msgs acc,
        e ∈ acc ∨ ∀ m ∈ msgs, otherParty userId m = e.otherUserId →
          m.createdAt ≤ e.lastMessage.createdAt := by
  intro msgs
  induction msgs with
  | nil => intro acc _ e he; exact Or.inl he
  | cons m0 rest ih =>
      intro acc hsorted e he
      rw [List.pairwise_cons] at hsorted
      obtain ⟨hhead, hrest⟩ := hsorted
      simp only [buildConversationMap] at he
      by_cases hc : (acc.any (fun x => x.otherUserId == otherParty userId m0)) = true
      · rw [if_pos hc] at he
        by_cases hacc : e ∈ acc
        · exact Or.inl hacc
        · rcases ih acc hrest e he with h | h
          · exact Or.inl h
          · refine Or.inr ?_
            intro m hm hkey
            rcases List.mem_cons.mp hm with rfl | hm2
            · exact absurd (bcm_key_closed userId all rest acc e.otherUserId
                (hkey ▸ hc) e he rfl) hacc
            · exact h m hm2 hkey
      · rw [if_neg hc] at he
        by_cases hacc : e ∈ acc
        · exact Or.inl hacc
        · by_cases hmk : e = mkConvEntry userId all m0
          · refine Or.inr ?_
            intro m hm _
            subst hmk
            rcases List.mem_cons.mp hm with rfl | hm2
            · exact Nat.le_refl _
            · exact hhead m hm2
          · rcases ih _ hrest e he with h | h
            · rcases List.mem_append.mp h with h2 | h2
              · exact Or.inl h2
              · exact absurd (List.mem_singleton.mp h2) hmk
            · refine Or.inr ?_
              intro m hm hkey
              rcases List.mem_cons.mp hm with rfl | hm2
              · have hany : ((acc ++ [mkConvEntry userId all m]).any
                    (fun x => x.otherUserId == otherParty userId m)) = true := by
                  rw [List.any_append]
                  simp [mkConvEntry_key]
                rcases List.mem_append.mp (bcm_key_closed userId all rest _
                    e.otherUserId (hkey ▸ hany) e he rfl) with h3 | h3
                · exact absurd h3 hacc
                · exact absurd (List.mem_singleton.mp h3) hmk
              · exact h m hm2 hkey

theorem countP_filterMap {α β : Type} (f : α → Option β) (p : β → Bool) (q : α → Bool)
    (l : List α) (h : ∀ a ∈ l, ∃ b, f a = some b ∧ p b = q a) :
    (l.filterMap f).countP p = l.countP q := by
  induction l with
  | nil => rfl
  | cons a rest ih =>
      rcases h a (List.mem_cons_self a rest) with ⟨b, hb, hpb⟩
      rw [List.filterMap_cons, hb]
      show (b :: rest.filterMap f).countP p = (a :: rest).countP q
      rw [List.countP_cons, List.countP_cons, hpb,
        ih (fun x hx => h x (List.mem_cons_of_mem a hx))]

/-- C3: for every user, `getConversations` contains exactly one entry per
distinct other party among the messages involving that user (provided
every such party is a registered user), each entry carries a message
exchanged with that party whose creation time is maximal among all
messages with that party, an `unreadCount` equal to the number of
messages from that party to the user with the read flag off, and the
list is sorted by last-message creation time descending. -/
theorem getConversations_spec (userId : Nat) (s : MemStorage)
    (hpart : ∀ m ∈ s.messages, involves userId m = true →
      ∃ u ∈ s.users, u.id = otherParty userId m) :
    (∀ p : Nat, (∃ m ∈ s.messages, involves userId m = true ∧ otherParty userId m = p) →
      (getConversations userId s).countP (fun c => c.participant.id == p) = 1) ∧
    (∀ c ∈ getConversations userId s,
      c.lastMessage ∈ s.messages ∧ involves userId c.lastMessage = true ∧
      otherParty userId c.lastMessage = c.participant.id ∧
      (∀ m ∈ s.messages, involves userId m = true →
        otherParty userId m = c.participant.id →
        m.createdAt ≤ c.lastMessage.createdAt) ∧
      c.unreadCount = s.messages.countP
        (fun m => m.senderId == c.participant.id && m.receiverId == userId && !m.isRead)) ∧
    (getConversations userId s).Pairwise
      (fun a b => b.lastMessage.createdAt ≤ a.lastMessage.createdAt) := by
  have hsorted : (sortByDesc Message.createdAt (s.messages.filter (involves userId))).Pairwise
      (fun a b => b.createdAt ≤ a.createdAt) := sortByDesc_sorted _ _
  set sortedM := sortByDesc Message.createdAt (s.messages.filter (involves userId)) with hsm
  set cmap := buildConversationMap userId s.messages sortedM [] with hcm
  have hgc : getConversations userId s =
      sortByDesc (fun c => c.lastMessage.createdAt) (cmap.filterMap (convOf s)) := rfl
  have hshape : ∀ e ∈ cmap, e.lastMessage ∈ sortedM ∧
      e = mkConvEntry userId s.messages e.lastMessage := by
    intro e he
    rcases bcm_entry_shape userId s.messages sortedM [] e he with h | h
    · cases h
    · exact h
  have hmsg : ∀ e ∈ cmap, e.lastMessage ∈ s.messages ∧ involves userId e.lastMessage = true := by
    intro e he
    exact List.mem_filter.mp ((mem_sortByDesc _ _).mp (hshape e he).1)
  have hsome : ∀ e ∈ cmap, ∃ u, getUser e.otherUserId s = some u ∧ u.id = e.otherUserId := by
    intro e he
    obtain ⟨hm, hinv⟩ := hmsg e he
    obtain ⟨u0, hu0, hid0⟩ := hpart e.lastMessage hm hinv
    have hkey : e.otherUserId = otherParty userId e.lastMessage :=
      congrArg ConvEntry.otherUserId (hshape e he).2
    have hfind : (s.users.find? (fun x => x.id == e.otherUserId)).isSome = true :=
      List.find?_isSome.mpr ⟨u0, hu0, by simp [hid0, hkey]⟩
    rcases Option.isSome_iff_exists.mp hfind with ⟨u, hu⟩
    exact ⟨u, hu, by simpa using List.find?_some hu⟩
  refine ⟨?_, ?_, ?_⟩
  · intro p hp
    rw [hgc]
    rw [List.Perm.countP_eq _ (sortByDesc_perm _ _)]
    have hcond : ∀ e ∈ cmap, ∃ b, convOf s e = some b ∧
        (fun c : Conversation => c.participant.id == p) b =
        (fun e : ConvEntry => e.otherUserId == p) e := by
      intro e he
      rcases hsome e he with ⟨u, hu, hid⟩
      refine ⟨⟨⟨u.id, u.displayName, u.username, u.avatar⟩, e.lastMessage, e.unreadCount⟩, ?_, ?_⟩
      · unfold convOf
        rw [hu, Option.map_some']
      · simp [hid]
    rw [countP_filterMap (convOf s) (fun c => c.participant.id == p)
      (fun e => e.otherUserId == p) cmap hcond]
    have hpresent : ∃ e ∈ cmap, e.otherUserId = p := by
      rcases hp with ⟨m, hm, hinv, hkeyp⟩
      rcases bcm_key_present userId s.messages sortedM [] m
        ((mem_sortByDesc _ _).mpr (List.mem_filter.mpr ⟨hm, hinv⟩)) with ⟨e, he, hek⟩
      exact ⟨e, he, by rw [hek, hkeyp]⟩
    rcases hpresent with ⟨e, he, hek⟩
    have hnd : (cmap.map ConvEntry.otherUserId).Nodup :=
      bcm_keys_nodup userId s.messages sortedM [] (by simp)
    have h1 : cmap.countP (fun e => e.otherUserId == p) =
        (cmap.map ConvEntry.otherUserId).countP (fun k => k == p) := by
      rw [List.countP_map]
      rfl
    rw [h1, ← List.count_eq_countP]
    exact List.count_eq_one_of_mem hnd (hek ▸ List.mem_map_of_mem _ he)
  · intro c hc
    rw [hgc] at hc
    have hc2 : c ∈ cmap.filterMap (convOf s) := (mem_sortByDesc _ _).mp hc
    rcases List.mem_filterMap.mp hc2 with ⟨e, he, hfe⟩
    rcases hsome e he with ⟨u, hu, huid⟩
    unfold convOf at hfe
    rw [hu, Option.map_some'] at hfe
    have hceq : c = ⟨⟨u.id, u.displayName, u.username, u.avatar⟩, e.lastMessage, e.unreadCount⟩ := by
      injection hfe with h
      exact h.symm
    subst hceq
    obtain ⟨hm, hinv⟩ := hmsg e he
    have hkey : e.otherUserId = otherParty userId e.lastMessage :=
      congrArg ConvEntry.otherUserId (hshape e he).2
    have hunread : e.unreadCount =
        unreadFrom (otherParty userId e.lastMessage) userId s.messages :=
      congrArg ConvEntry.unreadCount (hshape e he).2
    have hpu : otherParty userId e.lastMessage = u.id := by
      rw [huid, hkey]
    refine ⟨hm, hinv, hpu, ?_, ?_⟩
    · intro m hm2 hinv2 hkey2
      have hkey3 : otherParty userId m = e.otherUserId := by
        rw [← huid]
        exact hkey2
      rcases bcm_last_max userId s.messages sortedM [] hsorted e he with h | h
      · cases h
      · show m.createdAt ≤ e.lastMessage.createdAt
        exact h m ((mem_sortByDesc _ _).mpr (List.mem_filter.mpr ⟨hm2, hinv2⟩)) hkey3
    · show e.unreadCount = s.messages.countP
        (fun m => m.senderId == u.id && m.receiverId == userId && !m.isRead)
      rw [hunread]
      unfold unreadFrom
      rw [← List.countP_eq_length_filter]
      simp only [hpu]
  · rw [hgc]
    exact sortByDesc_sorted _ _

/-- Instantiation of the C3 theorem: Bob (id 2) in the sample store has
exactly one conversation, the one with Alice (id 1). -/
theorem getConversations_spec_witness :
    (getConversations 2 demoStore).countP (fun c => c.participant.id == 1) = 1 :=
  (getConversations_spec 2 demoStore (by decide)).1 1
    ⟨{ id := 1, senderId := 1, receiverId := 2, content := "m1",
       isRead := false, createdAt := 100 },
     by decide, by decide, by decide⟩

end Blog
